import Mathlib

/-!
Verification development for the Cira repository (binary causal-relation
annotating and scoring scripts).

The embedding is a shallow one:

* Python floats are modelled as exact rationals (`ℚ`); `NaN`/missing cells
  are modelled as `Option.none`.  The scripts only compare, count, add,
  multiply and divide label values, so the exact-rational model tracks the
  float code except for rounding at extreme magnitudes, which no script
  input exercises here.
* JSON values are modelled by the inductive `JVal`.  A JSON string is
  modelled together with the result of Python's `json.loads` on it
  (`JVal.js raw parsed`), because the scripts treat the parse outcome of an
  embedded string as the only observable property of that string; the
  embedding does not re-implement the textual JSON grammar.
* Python string-to-number coercions (`int(...)`, `float(...)`) are modelled
  on decimal literals with optional sign and fraction part (no exponent,
  no `inf`/`nan` words); every concrete input appearing in the claims is in
  that fragment.
* `requests` responses are modelled by `Resp` (status code, raw text, and
  the `r.json()` outcome, `none` meaning `r.json()` raises).  A transport
  `ℕ → Resp` gives the response received by the k-th attempt, so retry
  loops become pure recursion; the `time.sleep` calls are recorded in a
  list of slept durations.
* Exceptions are modelled by `Option`/explicit outcome constructors: an
  uncaught Python exception is an explicit `raised`-style value, never a
  Lean panic.
-/

namespace Cira

/-- JSON values as produced by `requests.Response.json()`.  A string leaf
`js raw parsed` carries the raw characters together with the outcome of
`json.loads raw` (`none` when that raises); object fields are modelled as an
association list with distinct keys, matching a decoded Python `dict`. -/
inductive JVal : Type where
  | null : JVal
  | jb (b : Bool) : JVal
  | jn (q : ℚ) : JVal
  | js (raw : String) (parsed : Option JVal) : JVal
  | ja (items : List JVal) : JVal
  | jo (fields : List (String × JVal)) : JVal

/-- Python truthiness (`bool(x)`) on the modelled JSON values. -/
def pyTruthy : JVal → Bool
  | .null => false
  | .jb b => b
  | .jn q => decide (q ≠ 0)
  | .js s _ => !s.data.isEmpty
  | .ja xs => !xs.isEmpty
  | .jo fs => !fs.isEmpty

/-- Python `json.loads(content)`: succeeds only on a string whose parse oracle
succeeds; `json.loads` of a non-string raises `TypeError`. -/
def jsonLoads : JVal → Option JVal
  | .js _ p => p
  | _ => none

/-- Python `s.strip()`: drop leading and trailing whitespace. -/
def pyStrip (s : String) : String :=
  ⟨((s.data.dropWhile Char.isWhitespace).reverse.dropWhile
      Char.isWhitespace).reverse⟩

/-- Python `s.lower()` (on the ASCII fragment the scripts compare
against). -/
def pyLower (s : String) : String := ⟨s.data.map Char.toLower⟩

/-- Python slicing `s[:n]`: the first `n` characters. -/
def strTake (s : String) (n : ℕ) : String := ⟨s.data.take n⟩

/-- Truncation of a rational toward zero, which is what Python's
`int(float_value)` performs: `int(2.7) = 2` and `int(-2.7) = -2`.  Lean's
`Int` division rounds toward negative infinity for the positive
denominator `q.den`, which is truncation exactly when the numerator is
non-negative; a negative numerator is handled by truncating `-q` and
negating. -/
def ratTrunc (q : ℚ) : ℤ :=
  if 0 ≤ q.num then q.num / (q.den : ℤ) else -((-q.num) / (q.den : ℤ))

/-- Digits of a decimal literal read into a natural number. -/
def digitsToNat (cs : List Char) : ℕ :=
  cs.foldl (fun a c => a * 10 + (c.toNat - 48)) 0

/-- Python `int(s)` on an already-stripped character list: an optional
sign followed by at least one digit. -/
def intStr? (cs : List Char) : Option ℤ :=
  let digits : List Char → Option ℤ := fun ds =>
    if !ds.isEmpty && ds.all Char.isDigit then some (digitsToNat ds) else none
  match cs with
  | '-' :: r => (digits r).map Neg.neg
  | '+' :: r => digits r
  | _ => digits cs

/-- Python `float(s)` on a stripped string, for decimal literals
`[+-]? digits? (. digits?)?` with at least one digit.  (Exponent forms and
the words `inf`/`nan` are outside the modelled fragment; no claim input
uses them.) -/
def strToRat? (s : String) : Option ℚ :=
  let cs := s.data
  let signAndRest : Bool × List Char :=
    match cs with
    | '-' :: r => (true, r)
    | '+' :: r => (false, r)
    | _ => (false, cs)
  let ip := signAndRest.2.takeWhile Char.isDigit
  let r1 := signAndRest.2.dropWhile Char.isDigit
  let fracAndRest : List Char × List Char :=
    match r1 with
    | '.' :: r => (r.takeWhile Char.isDigit, r.dropWhile Char.isDigit)
    | _ => ([], r1)
  if fracAndRest.2.isEmpty && !(ip.isEmpty && fracAndRest.1.isEmpty) then
    some ((if signAndRest.1 then (-1 : ℚ) else 1) *
      ((digitsToNat ip : ℚ) +
        (digitsToNat fracAndRest.1 : ℚ) / (10 : ℚ) ^ fracAndRest.1.length))
  else none

/-- Python `int(x)` on a modelled JSON value: exact for numbers (truncating
toward zero), `True`/`False` map to 1/0, strings are parsed as integer
literals after stripping, everything else raises (`none`). -/
def pyInt? : JVal → Option ℤ
  | .jn q => some (ratTrunc q)
  | .jb b => some (if b then 1 else 0)
  | .js s _ => intStr? (pyStrip s).data
  | _ => none

/-- Python `float(x)` on a modelled JSON value: numbers and booleans
coerce, strings go through the decimal-literal parser, everything else
raises (`none`). -/
def pyFloat? : JVal → Option ℚ
  | .jn q => some q
  | .jb b => some (if b then 1 else 0)
  | .js s _ => strToRat? (pyStrip s)
  | _ => none

/-- Boolean substring test (`pat in s` for Python strings). -/
def hasSubstr (s pat : String) : Bool :=
  (List.range (s.data.length + 1)).any
    (fun i => pat.data.isPrefixOf (s.data.drop i))

/-- One simulated `requests.post` reply: HTTP status, raw body text
(`r.text`), and the outcome of `r.json()` (`none` when it raises). -/
structure Resp : Type where
  status : ℕ
  text : String
  json : Option JVal

/-- Outcome of `call_openai` in `scripts/llm_label_causal_openai.py`:
either a `(label, confidence)` pair, the terminal `RuntimeError` built from
the f-string `"OpenAI call failed. status=... body=..."` (modelled
structurally as the carried last status and truncated body), or an uncaught
exception escaping the function (`r.json()` raising on a 200 reply). -/
inductive OpenaiOutcome : Type where
  | ok (label : ℤ) (conf : ℚ) : OpenaiOutcome
  | terminal (lastStatus : Option ℕ) (lastBody : String) : OpenaiOutcome
  | raised : OpenaiOutcome
  deriving DecidableEq

/-- Outcome of `call_responses` in
`scripts/llm_label_causal_responses.py`: a `(label, confidence)` pair, the
terminal `RuntimeError` whose message `"Responses API failed: ..."` carries
only the truncated body (no status field), or an uncaught exception from
the unguarded 200-reply parsing path. -/
inductive RespOutcome : Type where
  | ok (label : ℤ) (conf : ℚ) : RespOutcome
  | terminal (lastBody : String) : RespOutcome
  | raised : RespOutcome
  deriving DecidableEq

/-- Message of the terminal `RuntimeError` raised by `call_responses`:
`f"Responses API failed: {last}"`. -/
def respErrMsg : RespOutcome → String
  | .terminal b => "Responses API failed: " ++ b
  | _ => ""

/-- The `try:` block of `call_openai` on a decoded 200 body `data`:
`content = data["choices"][0]["message"]["content"]`, then
`obj = json.loads(content)`, `label = int(obj.get("label"))`,
`conf = float(obj.get("confidence", 0.5))`, then normalization
`label = 1 if label == 1 else 0` and `conf = min(max(conf, 0.0), 1.0)`.
`none` models any exception caught by the surrounding `except`. -/
def extractOpenai (data : JVal) : Option (ℤ × ℚ) :=
  match data with
  | .jo fs =>
    match List.lookup "choices" fs with
    | some (.ja (c0 :: _)) =>
      match c0 with
      | .jo f1 =>
        match List.lookup "message" f1 with
        | some (.jo f2) =>
          match List.lookup "content" f2 with
          | some content =>
            match jsonLoads content with
            | some (.jo po) =>
              match List.lookup "label" po with
              | some lv =>
                match pyInt? lv with
                | some i =>
                  match
                    (match List.lookup "confidence" po with
                     | none => some ((1 : ℚ) / 2)
                     | some cv => pyFloat? cv) with
                  | some c => some (if i = 1 then 1 else 0, min (max c 0) 1)
                  | none => none
                | none => none
              | none => none
            | _ => none
          | none => none
        | _ => none
      | _ => none
    | _ => none
  | _ => none

/-- The retry loop of `call_openai`: attempt index `a` receives `f a`; the
fuel is the remaining iterations of `for attempt in range(max_retries)`.
Each failed attempt records `last_status`/`last_body = r.text[:300]` and
sleeps `1.0 * (attempt + 1)`; exhausting the loop raises the terminal
`RuntimeError`. -/
def openaiLoop (f : ℕ → Resp) :
    ℕ → ℕ → Option ℕ → String → List ℚ → OpenaiOutcome × List ℚ
  | _, 0, ls, lb, sleeps => (.terminal ls lb, sleeps)
  | a, fuel + 1, _, _, sleeps =>
    let r := f a
    let ls' := some r.status
    let lb' := strTake r.text 300
    if r.status = 200 then
      match r.json with
      | none => (.raised, sleeps)
      | some data =>
        match extractOpenai data with
        | some yc => (.ok yc.1 yc.2, sleeps)
        | none => openaiLoop f (a + 1) fuel ls' lb' (sleeps ++ [(a : ℚ) + 1])
    else openaiLoop f (a + 1) fuel ls' lb' (sleeps ++ [(a : ℚ) + 1])

/-- Function `call_openai(api_key, model, text, max_retries=K)` against the
simulated transport `f`, returning the outcome and the list of slept
backoff durations in order. -/
def callOpenai (f : ℕ → Resp) (K : ℕ) : OpenaiOutcome × List ℚ :=
  openaiLoop f 0 K none "" []

/-- Strategy 1 of `parse_output`: the direct convenience field —
`if "output_text" in data and data["output_text"]: return ...`. -/
def strat1 (fs : List (String × JVal)) : Option JVal :=
  match List.lookup "output_text" fs with
  | some v => if pyTruthy v then some v else none
  | none => none

/-- Strategy 2 of `parse_output`: `ot = data.get("output", {})`, then
`isinstance(ot, dict) and "text" in ot and ot["text"]`. -/
def strat2 (fs : List (String × JVal)) : Option JVal :=
  match (List.lookup "output" fs).getD (.jo []) with
  | .jo f2 =>
    match List.lookup "text" f2 with
    | some v => if pyTruthy v then some v else none
    | none => none
  | _ => none

/-- Strategy 3 of `parse_output`:
`choices = data.get("output", {}).get("choices", [])`, then
`choices[0]["message"]["content"][0]["text"]` guarded by
`content and isinstance(content, list) and "text" in content[0]`.  Every
exception on the way is caught by the surrounding `except`, so any
non-matching shape yields `none`. -/
def strat3 (fs : List (String × JVal)) : Option JVal :=
  match List.lookup "output" fs with
  | some (.jo f2) =>
    match (List.lookup "choices" f2).getD (.ja []) with
    | .ja (c0 :: _) =>
      match c0 with
      | .jo f3 =>
        match List.lookup "message" f3 with
        | some (.jo f4) =>
          match List.lookup "content" f4 with
          | some (.ja (h :: _)) =>
            match h with
            | .jo f5 => List.lookup "text" f5
            | _ => none
          | _ => none
        | _ => none
      | _ => none
    | _ => none
  | _ => none

/-- Result of scanning the `content` list inside strategy 4: a found text,
no text found (continue with the next item), or an exception aborting the
whole `try` block of strategy 4. -/
inductive ScanRes : Type where
  | found (v : JVal) : ScanRes
  | nope : ScanRes
  | err : ScanRes

/-- The loop `for chunk in content: if "text" in chunk: return chunk["text"]`.
For a dict chunk, `"text" in chunk` is a key test and indexing returns the
value; for a list chunk it is membership of the string `"text"` and
indexing then raises; for a string chunk it is a substring test and
indexing then raises; for any other chunk the `in` test itself raises. -/
def scanChunks : List JVal → ScanRes
  | [] => .nope
  | chunk :: rest =>
    match chunk with
    | .jo f =>
      match List.lookup "text" f with
      | some v => .found v
      | none => scanChunks rest
    | .ja xs =>
      if xs.any (fun x => match x with | .js s _ => s == "text" | _ => false)
      then .err else scanChunks rest
    | .js s _ => if hasSubstr s "text" then .err else scanChunks rest
    | _ => .err

/-- The item loop of strategy 4: `for item in out:` where an item must be a
dict (otherwise `item.get` raises, aborting the strategy); a dict item with
`type == "message"` has its `content` (default `[]`) scanned; iterating a
non-iterable content raises; iterating a dict content iterates its string
keys, where a key containing `"text"` leads to a raising index. -/
def strat4Items : List JVal → Option JVal
  | [] => none
  | item :: rest =>
    match item with
    | .jo f =>
      if (match List.lookup "type" f with
          | some (.js s _) => s == "message"
          | _ => false) then
        match (List.lookup "content" f).getD (.ja []) with
        | .ja chunks =>
          match scanChunks chunks with
          | .found v => some v
          | .nope => strat4Items rest
          | .err => none
        | .jo f2 =>
          if f2.any (fun kv => hasSubstr kv.1 "text") then none
          else strat4Items rest
        | .js _ _ => strat4Items rest
        | _ => none
      else strat4Items rest
    | _ => none

/-- Strategy 4 of `parse_output`: `out = data.get("output", [])` iterated
looking for a `message`-typed item holding a content chunk with `"text"`;
a non-list `out` makes the loop raise (caught), failing the strategy. -/
def strat4 (fs : List (String × JVal)) : Option JVal :=
  match (List.lookup "output" fs).getD (.ja []) with
  | .ja items => strat4Items items
  | _ => none

/-- Function `parse_output(data)` from `scripts/llm_label_causal_responses.py`,
translated with the code's control flow: strategy 1 runs unguarded (on a
dict it cannot raise), strategies 2–4 each sit in their own
`try/except: pass`, and falling off the end raises `ValueError` (`none`).
A non-dict `data` always ends in an exception (either a `TypeError` from
strategy 1's `in` test or indexing, or the final `ValueError`), so it is
`none` as well. -/
def parse_output (data : JVal) : Option JVal :=
  match data with
  | .jo fs =>
    match strat1 fs with
    | some v => some v
    | none =>
      match strat2 fs with
      | some v => some v
      | none =>
        match strat3 fs with
        | some v => some v
        | none => strat4 fs
  | _ => none

/-- The 200-reply parse path of `call_responses` on the decoded body
`data`: `content = parse_output(r.json())`, `obj = json.loads(content)`,
`y = 1 if int(obj.get("label", 0)) == 1 else 0`,
`p = float(obj.get("confidence", 0.5))`, `return y, max(0.0, min(1.0, p))`.
None of it is wrapped in `try/except`, so `none` here means an exception
escaping `call_responses` itself. -/
def respParse (data : JVal) : Option (ℤ × ℚ) :=
  match parse_output data with
  | none => none
  | some content =>
    match jsonLoads content with
    | some (.jo po) =>
      match pyInt? ((List.lookup "label" po).getD (.jn 0)) with
      | some i =>
        match pyFloat? ((List.lookup "confidence" po).getD (.jn ((1 : ℚ) / 2))) with
        | some p => some (if i = 1 then 1 else 0, max 0 (min 1 p))
        | none => none
      | none => none
    | _ => none

/-- The retry loop of `call_responses`.  On a 200 reply the parse path is
NOT wrapped in `try/except`, so any failure there escapes the function
(`raised`); only a non-200 status reaches the `time.sleep(1.0 * (a + 1))`
retry; exhausting the loop raises
`RuntimeError(f"Responses API failed: {last}")` with
`last = r.text[:400]`. -/
def respLoop (f : ℕ → Resp) :
    ℕ → ℕ → String → List ℚ → RespOutcome × List ℚ
  | _, 0, last, sleeps => (.terminal last, sleeps)
  | a, fuel + 1, _, sleeps =>
    let r := f a
    let last' := strTake r.text 400
    if r.status = 200 then
      match r.json with
      | none => (.raised, sleeps)
      | some data =>
        match respParse data with
        | some yc => (.ok yc.1 yc.2, sleeps)
        | none => (.raised, sleeps)
    else respLoop f (a + 1) fuel last' (sleeps ++ [(a : ℚ) + 1])

/-- Function `call_responses(api_key, model, text, retries=K)` against the simulated
transport `f`, returning the outcome and the slept backoff durations. -/
def callResponses (f : ℕ → Resp) (K : ℕ) : RespOutcome × List ℚ :=
  respLoop f 0 K "" []

/-- The non-missing values of one row of the rating matrix
(`vals = X[i, mask[i]]` in `kripp_alpha_nominal`). -/
def rowVals (row : List (Option ℚ)) : List ℚ := row.filterMap id

/-- All non-missing cells of the matrix (`X[mask]` flattened). -/
def matVals (X : List (List (Option ℚ))) : List ℚ := X.flatMap rowVals

/-- The observed category set `cats = np.unique(X[mask])` (as a duplicate-
free list; only sums over it are taken, so order is irrelevant). -/
def catsOf (X : List (List (Option ℚ))) : List ℚ := (matVals X).dedup

/-- The observed-disagreement denominator as the spec writes it:
`Σ_i m_i (m_i − 1)` over ALL items (the source's `m <= 1: continue` only
skips zero summands). -/
def doDen (X : List (List (Option ℚ))) : ℕ :=
  (X.map (fun r => (rowVals r).length * ((rowVals r).length - 1))).sum

/-- The observed-disagreement numerator as the spec writes it:
`Σ_i Σ_c n_ic (m_i − n_ic)` over all items and observed categories. -/
def doNum (X : List (List (Option ℚ))) : ℕ :=
  (X.map (fun r =>
    ((catsOf X).map (fun c =>
      (rowVals r).count c * ((rowVals r).length - (rowVals r).count c))).sum)).sum

/-- The expected disagreement `De = 1 − Σ_c p_c²` with prevalences
`p_c = count_c / n_tot` over the observed category set — exactly the
`De = 1.0 - np.sum(np.square(p))` line of `kripp_alpha_nominal`
(`np.square(p)` written `p * p`). -/
def deVal (X : List (List (Option ℚ))) : ℚ :=
  1 - ((catsOf X).map (fun c =>
    ((((matVals X).count c : ℚ)) / ((matVals X).length : ℚ)) *
      ((((matVals X).count c : ℚ)) / ((matVals X).length : ℚ)))).sum

/-- The source's observed-disagreement denominator accumulation: the
per-row loop skips rows with `m <= 1` (`if m<=1: continue`). -/
def codeDoDen (X : List (List (Option ℚ))) : ℕ :=
  (X.map (fun r =>
    if (rowVals r).length ≤ 1 then 0
    else (rowVals r).length * ((rowVals r).length - 1))).sum

/-- The source's observed-disagreement numerator accumulation
(`Do_num += n*(m-n)` over `cats`, inside the same `m <= 1` skip). -/
def codeDoNum (X : List (List (Option ℚ))) : ℕ :=
  (X.map (fun r =>
    if (rowVals r).length ≤ 1 then 0
    else ((catsOf X).map (fun c =>
      (rowVals r).count c * ((rowVals r).length - (rowVals r).count c))).sum)).sum

/-- Function `kripp_alpha_nominal(X)` from `scripts/analyze_h2h.py`, translated
line by line (with the accumulation loops named `codeDoDen`/`codeDoNum`
and the `De` line named `deVal`): `Do` is `NaN` (here `none`) when its
denominator is 0, an all-missing matrix returns `NaN` early
(`n_tot == 0`), `De == 0` returns `1.0` exactly when `Do == 0` (false for
a `NaN` `Do`), and otherwise `1 - Do/De` with `NaN` propagating. -/
def kripp_alpha_nominal (X : List (List (Option ℚ))) : Option ℚ :=
  let Do : Option ℚ :=
    if 0 < codeDoDen X then some ((codeDoNum X : ℚ) / (codeDoDen X : ℚ))
    else none
  if (matVals X).length = 0 then none
  else
    let De : ℚ := deVal X
    if De = 0 then (if Do = some 0 then some 1 else none)
    else
      match Do with
      | some d => some (1 - d / De)
      | none => none

/-- One output row of the pairwise table:
`(rater_a, rater_b, n_items, alpha)`. -/
structure PairRow : Type where
  rater_a : ℕ
  rater_b : ℕ
  n_items : ℕ
  alpha : Option ℚ
  deriving DecidableEq

/-- Model of `itertools.combinations(raters, 2)` with raters as column indices
`0, …, R−1`: all pairs `(a, b)` with `a < b < R`, in column order. -/
def combos (R : ℕ) : List (ℕ × ℕ) :=
  (List.range R).flatMap
    (fun a => ((List.range R).filter (fun b => a < b)).map (fun b => (a, b)))

/-- Model of `df[[a,b]].dropna()`: the items where both raters `a` and `b` have a
non-missing label, as value pairs. -/
def pairSub (X : List (List (Option ℚ))) (a b : ℕ) : List (ℚ × ℚ) :=
  X.filterMap (fun row =>
    match row.get? a, row.get? b with
    | some (some x), some (some y) => some (x, y)
    | _, _ => none)

/-- The two-column matrix `sub.values` handed to `kripp_alpha_nominal`. -/
def pairMat (sub : List (ℚ × ℚ)) : List (List (Option ℚ)) :=
  sub.map (fun q => [some q.1, some q.2])

/-- The unsorted pairwise rows built by `main` in `scripts/analyze_h2h.py`:
for each combination, keep it only when `len(sub) >= 2`, recording
`(a, b, len(sub), kripp_alpha_nominal(sub.values))`. -/
def pairRowsOf (X : List (List (Option ℚ))) (R : ℕ) : List PairRow :=
  (combos R).filterMap (fun p =>
    let sub := pairSub X p.1 p.2
    if 2 ≤ sub.length then
      some ⟨p.1, p.2, sub.length, kripp_alpha_nominal (pairMat sub)⟩
    else none)

/-- The comparison realising `sort_values("alpha", ascending=False)` with
pandas' default `na_position="last"`: defined alphas in descending order,
undefined (`NaN`) alphas last. -/
def alphaLe (x y : Option ℚ) : Bool :=
  match x, y with
  | some a, some b => decide (b ≤ a)
  | some _, none => true
  | none, some _ => false
  | none, none => true

/-- The sorted pairwise table
(`pd.DataFrame(rows, ...).sort_values("alpha", ascending=False)`). -/
def computePairwiseTable (X : List (List (Option ℚ))) (R : ℕ) : List PairRow :=
  (pairRowsOf X R).mergeSort (fun r s => alphaLe r.alpha s.alpha)

/-- A raw label cell as read by `scripts/score_llm_vs_gold.py`: missing
(`pd.isna`), a number, or a string. -/
inductive Raw : Type where
  | na : Raw
  | num (q : ℚ) : Raw
  | str (s : String) : Raw
  deriving DecidableEq

/-- Function `to01(x)` from `scripts/score_llm_vs_gold.py`: missing stays missing;
a string is stripped and lowercased, with `"1"/"true"/"yes" → 1` and
`"0"/"false"/"no" → 0`; anything else goes through `int(float(x))`, and a
failing coercion yields missing. -/
def to01 : Raw → Option ℤ
  | .na => none
  | .str s =>
    let t := pyLower (pyStrip s)
    if t = "1" ∨ t = "true" ∨ t = "yes" then some 1
    else if t = "0" ∨ t = "false" ∨ t = "no" then some 0
    else
      match strToRat? (pyStrip s) with
      | some q => some (ratTrunc q)
      | none => none
  | .num q => some (ratTrunc q)

/-- The inner merge on `"text"`:
`gold[["text", label_col]].merge(pred[["text", "model_label", ...]],
on="text", how="inner")`, preserving left order then right order (the
pass-through `confidence` column plays no role in the claims and is
omitted). -/
def mergedRaw (gold pred : List (String × Raw)) : List (String × Raw × Raw) :=
  gold.flatMap (fun g =>
    (pred.filter (fun p => p.1 == g.1)).map (fun p => (g.1, g.2, p.2)))

/-- Applying `to01` to both label columns and
`dropna(subset=["y_true","y_pred"])`. -/
def keptRows (gold pred : List (String × Raw)) : List (String × ℤ × ℤ) :=
  (mergedRaw gold pred).filterMap (fun t =>
    match to01 t.2.1, to01 t.2.2 with
    | some a, some b => some (t.1, a, b)
    | _, _ => none)

/-- The scalar metrics and confusion counts printed by the script. -/
structure EvalMetrics : Type where
  acc : ℚ
  prec : ℚ
  recl : ℚ
  f1 : ℚ
  tn : ℕ
  fp : ℕ
  fn : ℕ
  tp : ℕ
  deriving DecidableEq

/-- The sorted label set sklearn's `confusion_matrix` infers:
`np.unique` of all true and predicted values. -/
def sortedLabels (rows : List (ℤ × ℤ)) : List ℤ :=
  ((rows.map Prod.fst ++ rows.map Prod.snd).dedup).mergeSort
    (fun a b => decide (a ≤ b))

/-- Model of `tn, fp, fn, tp = confusion_matrix(y_true, y_pred).ravel()` (modelled
from sklearn's documented semantics: entry `(i, j)` counts pairs with true
label `labels[i]` and predicted label `labels[j]`, flattened row-major).
The unpacking into four names succeeds only when the inferred label set has
exactly two elements; otherwise the script raises (`none`). -/
def cmRavel (rows : List (ℤ × ℤ)) : Option (ℕ × ℕ × ℕ × ℕ) :=
  match sortedLabels rows with
  | [l0, l1] =>
    some (rows.countP (fun p => decide (p.1 = l0 ∧ p.2 = l0)),
          rows.countP (fun p => decide (p.1 = l0 ∧ p.2 = l1)),
          rows.countP (fun p => decide (p.1 = l1 ∧ p.2 = l0)),
          rows.countP (fun p => decide (p.1 = l1 ∧ p.2 = l1)))
  | _ => none

/-- Model of `accuracy_score(y_true, y_pred)`: the exact-match rate. -/
def accuracyOf (rows : List (ℤ × ℤ)) : ℚ :=
  (rows.countP (fun p => decide (p.1 = p.2)) : ℚ) / (rows.length : ℚ)

/-- Binary precision with `pos_label=1` and `zero_division=0` (modelled
from sklearn's documented semantics). -/
def precisionB (rows : List (ℤ × ℤ)) : ℚ :=
  let tp := rows.countP (fun p => decide (p.1 = 1 ∧ p.2 = 1))
  let pp := rows.countP (fun p => decide (p.2 = 1))
  if pp = 0 then 0 else (tp : ℚ) / (pp : ℚ)

/-- Binary recall with `pos_label=1` and `zero_division=0`. -/
def recallB (rows : List (ℤ × ℤ)) : ℚ :=
  let tp := rows.countP (fun p => decide (p.1 = 1 ∧ p.2 = 1))
  let ap := rows.countP (fun p => decide (p.1 = 1))
  if ap = 0 then 0 else (tp : ℚ) / (ap : ℚ)

/-- Binary F1 with `zero_division=0`: harmonic mean, `0` when
`precision + recall = 0`. -/
def f1B (rows : List (ℤ × ℤ)) : ℚ :=
  if precisionB rows + recallB rows = 0 then 0
  else 2 * precisionB rows * recallB rows / (precisionB rows + recallB rows)

/-- The metric block of `scripts/score_llm_vs_gold.py`: accuracy and
precision/recall/F1 always compute; the confusion-matrix unpacking can
raise, which makes the whole block raise (`none`). -/
def scoreRows (rows : List (ℤ × ℤ)) : Option EvalMetrics :=
  match cmRavel rows with
  | some c => some ⟨accuracyOf rows, precisionB rows, recallB rows, f1B rows,
      c.1, c.2.1, c.2.2.1, c.2.2.2⟩
  | none => none

/-- The two failure modes of the scoring script: the explicit
`SystemExit("No overlaps. ...")` on an empty merged row set, and the
uncaught `ValueError` from unpacking a non-2×2 confusion matrix. -/
inductive ScoreErr : Type where
  | noOverlap : ScoreErr
  | cmUnpack : ScoreErr
  deriving DecidableEq

/-- The whole evaluation pipeline of `scripts/score_llm_vs_gold.py`:
merge, normalize, drop missing, fail fast on empty overlap, then compute
the metrics (also returning the merged rows, which the script writes
out). -/
def evaluate (gold pred : List (String × Raw)) :
    Except ScoreErr (EvalMetrics × List (String × ℤ × ℤ)) :=
  let kept := keptRows gold pred
  if kept.isEmpty then .error .noOverlap
  else
    match scoreRows (kept.map (fun t => (t.2.1, t.2.2))) with
    | some m => .ok (m, kept)
    | none => .error .cmUnpack

/-- A reply on which one `call_openai` attempt fails and falls through to
the retry sleep: either a non-200 status, or a 200 whose body decodes but
whose shape/payload fails somewhere inside the guarded `try` block. -/
def openaiRetryable (r : Resp) : Prop :=
  r.status ≠ 200 ∨ ∃ d, r.json = some d ∧ extractOpenai d = none

/-- A reply on which one `call_responses` attempt falls through to the
retry sleep: only a non-200 status does (the 200 parse path is
unguarded). -/
def respRetryable (r : Resp) : Prop := r.status ≠ 200

/-- The durations slept by failed attempts `a, …, a + j − 1`:
`1.0 * (attempt + 1)` for each. -/
def sleepSeqFrom (a j : ℕ) : List ℚ :=
  (List.range j).map (fun i => ((a + i : ℕ) : ℚ) + 1)

/-- The backoff durations slept after the first `j` attempts all fail:
`[1, 2, …, j]`. -/
def sleepSeq (j : ℕ) : List ℚ := sleepSeqFrom 0 j

/-- A well-formed completion-envelope body with label 1 and
confidence 0.9. -/
def goodOpenaiBody : JVal :=
  .jo [("choices", .ja [.jo [("message", .jo [("content",
    .js "payload" (some (.jo [("label", .jn 1), ("confidence", .jn (9/10))])))])]])]

/-- A reply carrying a well-formed completion envelope with label 1 and
confidence 0.9. -/
def goodOpenaiResp : Resp := ⟨200, "okbody", some goodOpenaiBody⟩

/-- A 500 reply. -/
def fail500 : Resp := ⟨500, "oops500", none⟩

/-- A simulated service failing on attempts 1–2 with status 500 and
succeeding on attempt 3. -/
def failTwice : ℕ → Resp := fun k => if k < 2 then fail500 else goodOpenaiResp

/-- A 200 reply whose body decodes to an empty JSON object: no extraction
strategy applies to it. -/
def malformed200 : Resp := ⟨200, "weird", some (.jo [])⟩

/-- A structured-output envelope body whose payload object lacks the
`label` key (confidence 0.9 present). -/
def respNoLabelBody : JVal :=
  .jo [("output_text", .js "y" (some (.jo [("confidence", .jn (9/10))])))]

/-- A structured-output 200 reply whose payload object lacks the `label`
key (confidence 0.9 present). -/
def respNoLabel : Resp := ⟨200, "rb", some respNoLabelBody⟩

/-- A completion-envelope 200 reply whose payload object lacks the `label`
key (confidence 0.9 present). -/
def openaiNoLabel : Resp :=
  ⟨200, "nb", some (.jo [("choices", .ja [.jo [("message", .jo [("content",
    .js "payload" (some (.jo [("confidence", .jn (9/10))])))])]])])⟩

/-- A non-200 reply whose body text contains no digits (so the digits of
its status code cannot accidentally appear in an error message). -/
def failPlain : Resp := ⟨503, "service unavailable", none⟩

/-- A completion envelope (shape 1 of the spec) wrapping the payload
object `po`: `{"choices": [{"message": {"content": "<payload>"}}]}`. -/
def mkOpenaiEnvP (po : List (String × JVal)) : JVal :=
  .jo [("choices", .ja [.jo [("message", .jo [("content",
    .js "payload" (some (.jo po)))])]])]

/-- A structured-output envelope (direct `output_text` field) wrapping the
payload object `po`. -/
def mkRespEnvP (po : List (String × JVal)) : JVal :=
  .jo [("output_text", .js "payload" (some (.jo po)))]

/-- The payload object `{"label": lv}` or
`{"label": lv, "confidence": cv}`. -/
def payloadFields (lv : JVal) (cv : Option JVal) : List (String × JVal) :=
  ("label", lv) :: (match cv with | none => [] | some v => [("confidence", v)])

/-- The confidence both clients compute before clamping: the default `0.5`
when the field is absent, else `float(value)` (`none` = raises/caught). -/
def confVal (cv : Option JVal) : Option ℚ :=
  match cv with
  | none => some ((1 : ℚ) / 2)
  | some v => pyFloat? v

/-! ## General lemmas about the embedding -/

/-- Boolean string comparison agrees with decidable propositional
equality. -/
theorem str_beq_decide (s t : String) : (s == t) = decide (s = t) := by
  by_cases h : s = t
  · subst h; simp
  · simp [h]

/-- Unfolding `sleepSeqFrom` once. -/
theorem sleepSeqFrom_succ (a n : ℕ) :
    sleepSeqFrom a (n + 1) = ((a : ℚ) + 1) :: sleepSeqFrom (a + 1) n := by
  unfold sleepSeqFrom
  rw [List.range_succ_eq_map, List.map_cons, List.map_map]
  congr 1
  · apply List.map_congr_left
    intro i _
    simp only [Function.comp_apply]
    push_cast
    ring

/-- The sleeps of the first `j` attempts start at attempt 0. -/
theorem sleepSeq_eq_from (j : ℕ) : sleepSeq j = sleepSeqFrom 0 j := rfl

/-- One failed `call_openai` attempt: a retryable reply advances the loop,
recording status, truncated body and the backoff sleep `attempt + 1`. -/
theorem openaiLoop_fail_step (f : ℕ → Resp) (a fuel : ℕ) (ls : Option ℕ)
    (lb : String) (sleeps : List ℚ) (h : openaiRetryable (f a)) :
    openaiLoop f a (fuel + 1) ls lb sleeps =
      openaiLoop f (a + 1) fuel (some (f a).status) (strTake (f a).text 300)
        (sleeps ++ [(a : ℚ) + 1]) := by
  rcases h with h | ⟨d, hj, he⟩
  · simp only [openaiLoop]
    rw [if_neg h]
  · by_cases hs : (f a).status = 200
    · simp only [openaiLoop]
      rw [if_pos hs, hj]
      simp [he]
    · simp only [openaiLoop]
      rw [if_neg hs]

/-- One successful `call_openai` attempt returns immediately with the
extracted pair and no further sleeping. -/
theorem openaiLoop_ok_step (f : ℕ → Resp) (a fuel : ℕ) (ls : Option ℕ)
    (lb : String) (sleeps : List ℚ) (d : JVal) (yc : ℤ × ℚ)
    (hs : (f a).status = 200) (hj : (f a).json = some d)
    (he : extractOpenai d = some yc) :
    openaiLoop f a (fuel + 1) ls lb sleeps = (.ok yc.1 yc.2, sleeps) := by
  simp only [openaiLoop]
  rw [if_pos hs, hj]
  simp [he]

/-- Skipping `j` consecutive retryable attempts of `call_openai`. -/
theorem openaiLoop_skip (f : ℕ → Resp) (fuel : ℕ) (j : ℕ) :
    ∀ (a : ℕ) (ls : Option ℕ) (lb : String) (sleeps : List ℚ),
      0 < j → (∀ i, i < j → openaiRetryable (f (a + i))) →
      openaiLoop f a (j + fuel) ls lb sleeps =
        openaiLoop f (a + j) fuel (some ((f (a + j - 1)).status))
          (strTake (f (a + j - 1)).text 300) (sleeps ++ sleepSeqFrom a j) := by
  induction j with
  | zero => intro a ls lb sleeps h0; omega
  | succ n ih =>
    intro a ls lb sleeps _ h
    have h0 : openaiRetryable (f a) := by
      have := h 0 (by omega)
      simpa using this
    rw [show n + 1 + fuel = n + fuel + 1 from by omega,
      openaiLoop_fail_step f a (n + fuel) ls lb sleeps h0]
    rcases Nat.eq_zero_or_pos n with hn | hn
    · subst hn
      rw [sleepSeqFrom_succ]
      simp [sleepSeqFrom]
    · have hrec := ih (a + 1) (some ((f a).status)) (strTake (f a).text 300)
        (sleeps ++ [(a : ℚ) + 1]) hn (fun i hi => by
          have := h (i + 1) (by omega)
          rwa [show a + (i + 1) = a + 1 + i from by omega] at this)
      rw [hrec, show a + 1 + n = a + (n + 1) from by omega,
        List.append_assoc, sleepSeqFrom_succ]
      rfl

/-- One failed (non-200) `call_responses` attempt advances the loop. -/
theorem respLoop_fail_step (f : ℕ → Resp) (a fuel : ℕ) (last : String)
    (sleeps : List ℚ) (h : respRetryable (f a)) :
    respLoop f a (fuel + 1) last sleeps =
      respLoop f (a + 1) fuel (strTake (f a).text 400)
        (sleeps ++ [(a : ℚ) + 1]) := by
  simp only [respLoop]
  rw [if_neg h]

/-- A 200 `call_responses` attempt whose parse path succeeds returns
immediately. -/
theorem respLoop_ok_step (f : ℕ → Resp) (a fuel : ℕ) (last : String)
    (sleeps : List ℚ) (d : JVal) (yc : ℤ × ℚ)
    (hs : (f a).status = 200) (hj : (f a).json = some d)
    (he : respParse d = some yc) :
    respLoop f a (fuel + 1) last sleeps = (.ok yc.1 yc.2, sleeps) := by
  simp only [respLoop]
  rw [if_pos hs, hj]
  simp [he]

/-- A 200 `call_responses` attempt whose parse path fails raises out of
the function at once: no retry, no terminal error. -/
theorem respLoop_raise_step (f : ℕ → Resp) (a fuel : ℕ) (last : String)
    (sleeps : List ℚ) (d : JVal)
    (hs : (f a).status = 200) (hj : (f a).json = some d)
    (he : respParse d = none) :
    respLoop f a (fuel + 1) last sleeps = (.raised, sleeps) := by
  simp only [respLoop]
  rw [if_pos hs, hj]
  simp [he]

/-- Skipping `j` consecutive non-200 attempts of `call_responses`. -/
theorem respLoop_skip (f : ℕ → Resp) (fuel : ℕ) (j : ℕ) :
    ∀ (a : ℕ) (last : String) (sleeps : List ℚ),
      0 < j → (∀ i, i < j → respRetryable (f (a + i))) →
      respLoop f a (j + fuel) last sleeps =
        respLoop f (a + j) fuel (strTake ((f (a + j - 1)).text) 400)
          (sleeps ++ sleepSeqFrom a j) := by
  induction j with
  | zero => intro a last sleeps h0; omega
  | succ n ih =>
    intro a last sleeps _ h
    have h0 : respRetryable (f a) := by
      have := h 0 (by omega)
      simpa using this
    rw [show n + 1 + fuel = n + fuel + 1 from by omega,
      respLoop_fail_step f a (n + fuel) last sleeps h0]
    rcases Nat.eq_zero_or_pos n with hn | hn
    · subst hn
      rw [sleepSeqFrom_succ]
      simp [sleepSeqFrom]
    · have hrec := ih (a + 1) (strTake (f a).text 400)
        (sleeps ++ [(a : ℚ) + 1]) hn (fun i hi => by
          have := h (i + 1) (by omega)
          rwa [show a + (i + 1) = a + 1 + i from by omega] at this)
      rw [hrec, show a + 1 + n = a + (n + 1) from by omega,
        List.append_assoc, sleepSeqFrom_succ]
      rfl

/-- Running `call_openai` with every attempt failing retryably: the terminal error
carries the last status and the last body truncated to 300 characters, and
the slept backoffs are `1, 2, …, K`. -/
theorem callOpenai_allFail (f : ℕ → Resp) (K : ℕ) (hK : 0 < K)
    (h : ∀ i, i < K → openaiRetryable (f i)) :
    callOpenai f K =
      (.terminal (some ((f (K - 1)).status)) (strTake ((f (K - 1)).text) 300),
        sleepSeq K) := by
  unfold callOpenai
  rw [show K = K + 0 from by omega]
  rw [openaiLoop_skip f 0 K 0 none "" [] hK (by simpa using h)]
  rw [sleepSeq_eq_from]
  simp [openaiLoop]

/-- Running `call_openai` with the first `j` attempts failing retryably and
attempt `j + 1` succeeding: the success value is returned with the sleeps
`1, …, j` recorded. -/
theorem callOpenai_okAt (f : ℕ → Resp) (K j : ℕ) (hj : j < K)
    (h : ∀ i, i < j → openaiRetryable (f i)) (d : JVal) (yc : ℤ × ℚ)
    (hs : (f j).status = 200) (hjs : (f j).json = some d)
    (he : extractOpenai d = some yc) :
    callOpenai f K = (.ok yc.1 yc.2, sleepSeq j) := by
  unfold callOpenai
  rcases Nat.eq_zero_or_pos j with h0 | h0
  · subst h0
    obtain ⟨k, rfl⟩ : ∃ k, K = k + 1 := ⟨K - 1, by omega⟩
    rw [openaiLoop_ok_step f 0 k none "" [] d yc hs hjs he]
    simp [sleepSeq, sleepSeqFrom]
  · rw [show K = j + (K - j) from by omega,
      openaiLoop_skip f (K - j) j 0 none "" [] h0 (by simpa using h)]
    obtain ⟨k, hk⟩ : ∃ k, K - j = k + 1 := ⟨K - j - 1, by omega⟩
    rw [hk, Nat.zero_add,
      openaiLoop_ok_step f j k _ _ _ d yc hs hjs he, sleepSeq_eq_from]
    simp [sleepSeqFrom]

/-- Running `call_responses` with every attempt non-200: the terminal error
carries only the last body truncated to 400 characters. -/
theorem callResponses_allFail (f : ℕ → Resp) (K : ℕ) (hK : 0 < K)
    (h : ∀ i, i < K → respRetryable (f i)) :
    callResponses f K =
      (.terminal (strTake ((f (K - 1)).text) 400), sleepSeq K) := by
  unfold callResponses
  rw [show K = K + 0 from by omega]
  rw [respLoop_skip f 0 K 0 "" [] hK (by simpa using h)]
  rw [sleepSeq_eq_from]
  simp [respLoop]

/-- Running `call_responses` with the first `j` attempts non-200 and attempt
`j + 1` parsing successfully. -/
theorem callResponses_okAt (f : ℕ → Resp) (K j : ℕ) (hj : j < K)
    (h : ∀ i, i < j → respRetryable (f i)) (d : JVal) (yc : ℤ × ℚ)
    (hs : (f j).status = 200) (hjs : (f j).json = some d)
    (he : respParse d = some yc) :
    callResponses f K = (.ok yc.1 yc.2, sleepSeq j) := by
  unfold callResponses
  rcases Nat.eq_zero_or_pos j with h0 | h0
  · subst h0
    obtain ⟨k, rfl⟩ : ∃ k, K = k + 1 := ⟨K - 1, by omega⟩
    rw [respLoop_ok_step f 0 k "" [] d yc hs hjs he]
    simp [sleepSeq, sleepSeqFrom]
  · rw [show K = j + (K - j) from by omega,
      respLoop_skip f (K - j) j 0 "" [] h0 (by simpa using h)]
    obtain ⟨k, hk⟩ : ∃ k, K - j = k + 1 := ⟨K - j - 1, by omega⟩
    rw [hk, Nat.zero_add,
      respLoop_ok_step f j k _ _ d yc hs hjs he, sleepSeq_eq_from]
    simp [sleepSeqFrom]

/-- Running `call_responses` whose first attempt is a 200 with an unparseable body
raises immediately, with no sleeps recorded. -/
theorem callResponses_raiseAt0 (f : ℕ → Resp) (K : ℕ) (hK : 0 < K)
    (d : JVal) (hs : (f 0).status = 200) (hjs : (f 0).json = some d)
    (he : respParse d = none) :
    callResponses f K = (.raised, []) := by
  unfold callResponses
  obtain ⟨k, rfl⟩ : ∃ k, K = k + 1 := ⟨K - 1, by omega⟩
  exact respLoop_raise_step f 0 k "" [] d hs hjs he

/-- A successful `call_openai` extraction yields a label in `{0, 1}` and a
confidence clamped into `[0, 1]`. -/
theorem extractOpenai_bounds (data : JVal) (y : ℤ) (c : ℚ)
    (h : extractOpenai data = some (y, c)) :
    (y = 0 ∨ y = 1) ∧ 0 ≤ c ∧ c ≤ 1 := by
  unfold extractOpenai at h
  repeat' split at h
  all_goals try exact Option.noConfusion h
  all_goals injection h with h'
  all_goals obtain ⟨hy, hc⟩ := Prod.mk.inj h'
  all_goals subst hc
  all_goals exact ⟨by omega, le_min (le_max_right _ _) (by norm_num),
    min_le_right _ _⟩

/-- A successful `call_responses` parse yields a label in `{0, 1}` and a
confidence clamped into `[0, 1]`. -/
theorem respParse_bounds (data : JVal) (y : ℤ) (c : ℚ)
    (h : respParse data = some (y, c)) :
    (y = 0 ∨ y = 1) ∧ 0 ≤ c ∧ c ≤ 1 := by
  unfold respParse at h
  repeat' split at h
  all_goals try exact Option.noConfusion h
  all_goals injection h with h'
  all_goals obtain ⟨hy, hc⟩ := Prod.mk.inj h'
  all_goals subst hc
  all_goals exact ⟨by omega, le_max_left _ _,
    max_le (by norm_num) (min_le_left _ _)⟩

/-! ## Claim C3 -/

/-- Claim C3 as stated is false on the code: with the default three
attempts and a transport failing on attempts 1–2 and succeeding on
attempt 3, `call_openai` returns attempt 3's result having slept `[1, 2]`:
the delay waited before attempt `k` is `unit × (k − 1)` (here 1 before
attempt 2), not `unit × k = 2` as the claim requires. -/
theorem claim3_backoff_counterexample :
    callOpenai failTwice 3 = (.ok 1 (9/10), [1, 2]) ∧
      ¬ ([(1 : ℚ), 2] = [2, 3]) := by
  constructor
  · simp [callOpenai, openaiLoop, failTwice, fail500, goodOpenaiResp,
      goodOpenaiBody, extractOpenai, jsonLoads, pyInt?, pyFloat?, ratTrunc,
      strTake, List.lookup, str_beq_decide]
    norm_num
  · simp only [List.cons.injEq]
    norm_num

/-- Claim C3 amended: both clients make at most `K` attempts; the
completion-envelope client retries on a non-success status or a
malformed-but-decodable 200 body, while the structured-output client
retries only on a non-success status; the backoff delay recorded after
failed attempt `k` is `unit × k` (so the delay waited before attempt `k`,
`k ≥ 2`, is `unit × (k − 1)`); if the first `j < K` attempts fail this way
and attempt `j + 1` succeeds, the call returns attempt `j + 1`'s result
without raising, having slept `1, …, j`. -/
theorem claim3_retry_amended :
    (∀ (f : ℕ → Resp) (K j : ℕ), j < K →
      (∀ i, i < j → openaiRetryable (f i)) →
      ∀ (d : JVal) (yc : ℤ × ℚ), (f j).status = 200 → (f j).json = some d →
        extractOpenai d = some yc →
        callOpenai f K = (.ok yc.1 yc.2, sleepSeq j)) ∧
    (∀ (f : ℕ → Resp) (K j : ℕ), j < K →
      (∀ i, i < j → respRetryable (f i)) →
      ∀ (d : JVal) (yc : ℤ × ℚ), (f j).status = 200 → (f j).json = some d →
        respParse d = some yc →
        callResponses f K = (.ok yc.1 yc.2, sleepSeq j)) := by
  constructor
  · intro f K j hj h d yc hs hjs he
    exact callOpenai_okAt f K j hj h d yc hs hjs he
  · intro f K j hj h d yc hs hjs he
    exact callResponses_okAt f K j hj h d yc hs hjs he

/-- Witness for the amended claim C3 at concrete transports: both clients
fail twice with status 500, succeed on attempt 3, and sleep `1, 2`. -/
theorem claim3_witness :
    callOpenai failTwice 3 = (.ok 1 (9/10), sleepSeq 2) ∧
      callResponses (fun k => if k < 2 then fail500 else respNoLabel) 3 =
        (.ok 0 (9/10), sleepSeq 2) := by
  constructor
  · exact claim3_retry_amended.1 failTwice 3 2 (by norm_num)
      (fun i hi => Or.inl (by simp [failTwice, hi, fail500]))
      goodOpenaiBody (1, 9/10)
      (by simp [failTwice, goodOpenaiResp])
      (by simp [failTwice, goodOpenaiResp])
      (by simp [goodOpenaiBody, extractOpenai, jsonLoads, pyInt?, pyFloat?,
        ratTrunc, List.lookup, str_beq_decide]
          norm_num)
  · exact claim3_retry_amended.2 (fun k => if k < 2 then fail500 else respNoLabel)
      3 2 (by norm_num)
      (fun i hi => by simp [respRetryable, hi, fail500])
      respNoLabelBody (0, 9/10)
      (by simp [respNoLabel])
      (by simp [respNoLabel])
      (by simp [respNoLabelBody, respParse, parse_output, strat1, pyTruthy,
        jsonLoads, pyInt?, pyFloat?, ratTrunc, List.lookup, str_beq_decide]
          norm_num)

/-! ## Claim C4 -/

/-- Claim C4 as stated is false on the code: when all attempts of
`call_responses` fail, its terminal `RuntimeError` message
`"Responses API failed: {last}"` carries only the truncated body — the
last observed status code (here 503) appears nowhere in it. -/
theorem claim4_responses_error_counterexample :
    callResponses (fun _ => failPlain) 3 =
        (.terminal "service unavailable", [1, 2, 3]) ∧
      hasSubstr (respErrMsg (.terminal "service unavailable")) "503" = false := by
  constructor
  · simp [callResponses, respLoop, failPlain, strTake]
    norm_num
  · decide

/-- Claim C4 amended: after `K` failed attempts `call_openai` raises a
terminal error carrying the last observed status and the last body
truncated to 300 characters, while `call_responses` raises a terminal
error whose message carries only the last body truncated to 400
characters (no status). -/
theorem claim4_terminal_amended :
    (∀ (f : ℕ → Resp) (K : ℕ), 0 < K → (∀ i, i < K → openaiRetryable (f i)) →
      callOpenai f K =
        (.terminal (some ((f (K - 1)).status)) (strTake ((f (K - 1)).text) 300),
          sleepSeq K)) ∧
    (∀ (f : ℕ → Resp) (K : ℕ), 0 < K → (∀ i, i < K → respRetryable (f i)) →
      callResponses f K =
          (.terminal (strTake ((f (K - 1)).text) 400), sleepSeq K) ∧
        respErrMsg (.terminal (strTake ((f (K - 1)).text) 400)) =
          "Responses API failed: " ++ strTake ((f (K - 1)).text) 400) :=
  ⟨callOpenai_allFail,
    fun f K hK h => ⟨callResponses_allFail f K hK h, rfl⟩⟩

/-- Witness for the amended claim C4: both clients against all-failing
transports. -/
theorem claim4_witness :
    callOpenai (fun _ => fail500) 3 =
        (.terminal (some 500) (strTake "oops500" 300), sleepSeq 3) ∧
      callResponses (fun _ => failPlain) 2 =
        (.terminal (strTake "service unavailable" 400), sleepSeq 2) := by
  constructor
  · exact claim4_terminal_amended.1 (fun _ => fail500) 3 (by norm_num)
      (fun i hi => Or.inl (by simp [fail500]))
  · exact (claim4_terminal_amended.2 (fun _ => failPlain) 2 (by norm_num)
      (fun i hi => by simp [respRetryable, failPlain])).1

/-! ## Claim C5 -/

/-- Claim C5 as stated is false on the code: a 200 reply whose decoded
body matches no extraction strategy makes `call_responses` raise the
parse error immediately — one attempt, no sleeps, no retry — rather than
triggering a retry counting toward the `K` attempts. -/
theorem claim5_responses_noretry_counterexample :
    callResponses (fun _ => malformed200) 3 = (.raised, []) ∧
      (RespOutcome.raised ≠ .terminal (strTake malformed200.text 400)) := by
  constructor
  · simp [callResponses, respLoop, malformed200, respParse, parse_output,
      strat1, strat2, strat3, strat4, strat4Items, List.lookup,
      str_beq_decide, strTake]
  · decide

/-- Claim C5 amended: the extraction strategies are applied in a fixed
priority order with the first success winning; a 200 reply from which no
strategy extracts a parseable payload is treated by the
completion-envelope client as malformed and retried (counting toward the
`K` attempts, ending in the terminal error — never a silent default),
while the structured-output client raises the parse error immediately on
such a reply, without retrying. -/
theorem claim5_extraction_amended :
    (∀ fs : List (String × JVal),
      parse_output (.jo fs) =
        ((strat1 fs).orElse fun _ => (strat2 fs).orElse fun _ =>
          (strat3 fs).orElse fun _ => strat4 fs)) ∧
    (∀ (f : ℕ → Resp) (K : ℕ), 0 < K →
      (∀ i, i < K → (f i).status = 200 ∧
        ∃ d, (f i).json = some d ∧ extractOpenai d = none) →
      callOpenai f K =
        (.terminal (some ((f (K - 1)).status)) (strTake ((f (K - 1)).text) 300),
          sleepSeq K)) ∧
    (∀ (f : ℕ → Resp) (K : ℕ) (d : JVal), 0 < K → (f 0).status = 200 →
      (f 0).json = some d → parse_output d = none →
      callResponses f K = (.raised, [])) := by
  refine ⟨?_, ?_, ?_⟩
  · intro fs
    unfold parse_output
    cases h1 : strat1 fs <;> cases h2 : strat2 fs <;> cases h3 : strat3 fs <;>
      simp [h1, h2, h3, Option.orElse]
  · intro f K hK h
    apply callOpenai_allFail f K hK
    intro i hi
    rcases h i hi with ⟨hs, d, hj, he⟩
    exact Or.inr ⟨d, hj, he⟩
  · intro f K d hK hs hj hp
    apply callResponses_raiseAt0 f K hK d hs hj
    simp [respParse, hp]

/-- Witness for the amended claim C5 at concrete inputs: the empty JSON
object reply is retried to the terminal error by the completion-envelope
client and raises at once in the structured-output client. -/
theorem claim5_witness :
    parse_output (.jo []) =
        ((strat1 []).orElse fun _ => (strat2 []).orElse fun _ =>
          (strat3 []).orElse fun _ => strat4 []) ∧
      callOpenai (fun _ => malformed200) 3 =
        (.terminal (some 200) (strTake "weird" 300), sleepSeq 3) ∧
      callResponses (fun _ => malformed200) 2 = (.raised, []) := by
  refine ⟨claim5_extraction_amended.1 [], ?_, ?_⟩
  · exact claim5_extraction_amended.2.1 (fun _ => malformed200) 3 (by norm_num)
      (fun i hi => ⟨by simp [malformed200], .jo [], by simp [malformed200], rfl⟩)
  · exact claim5_extraction_amended.2.2 (fun _ => malformed200) 2 (.jo [])
      (by norm_num) (by simp [malformed200]) (by simp [malformed200]) rfl

/-! ## Claim C6 -/

/-- Claim C6: after a successful extraction both clients return a label
that is exactly 1 when the extracted integer equals 1 and 0 for every
other integer (not an error), and a confidence clamped into `[0, 1]`,
defaulting to 0.5 when the field is absent. -/
theorem claim6_normalization :
    (∀ (data : JVal) (y : ℤ) (c : ℚ), extractOpenai data = some (y, c) →
      (y = 0 ∨ y = 1) ∧ 0 ≤ c ∧ c ≤ 1) ∧
    (∀ (data : JVal) (y : ℤ) (c : ℚ), respParse data = some (y, c) →
      (y = 0 ∨ y = 1) ∧ 0 ≤ c ∧ c ≤ 1) ∧
    (∀ (lv : JVal) (i : ℤ) (cv : Option JVal) (q : ℚ),
      pyInt? lv = some i → confVal cv = some q →
      extractOpenai (mkOpenaiEnvP (payloadFields lv cv)) =
          some (if i = 1 then 1 else 0, min (max q 0) 1) ∧
        respParse (mkRespEnvP (payloadFields lv cv)) =
          some (if i = 1 then 1 else 0, max 0 (min 1 q))) ∧
    confVal none = some (1/2) := by
  refine ⟨extractOpenai_bounds, respParse_bounds, ?_, rfl⟩
  intro lv i cv q hi hq
  cases cv with
  | none =>
    simp only [confVal] at hq
    injection hq with hq'
    subst hq'
    constructor
    · simp [mkOpenaiEnvP, payloadFields, extractOpenai, jsonLoads,
        List.lookup, str_beq_decide, hi]
    · simp [mkRespEnvP, payloadFields, respParse, parse_output, strat1,
        pyTruthy, jsonLoads, List.lookup, str_beq_decide, hi, pyFloat?]
  | some v =>
    simp only [confVal] at hq
    constructor
    · simp [mkOpenaiEnvP, payloadFields, extractOpenai, jsonLoads,
        List.lookup, str_beq_decide, hi, hq]
    · simp [mkRespEnvP, payloadFields, respParse, parse_output, strat1,
        pyTruthy, jsonLoads, List.lookup, str_beq_decide, hi, hq]

/-- Witness for claim C6: the extracted integer −5 (a negative,
out-of-range value given as a string) normalizes to label 0 with the
absent confidence defaulting to 0.5, in both clients. -/
theorem claim6_witness :
    pyInt? (.js "-5" none) = some (-5) ∧
      extractOpenai (mkOpenaiEnvP (payloadFields (.js "-5" none) none)) =
        some (0, 1/2) ∧
      respParse (mkRespEnvP (payloadFields (.js "-5" none) none)) =
        some (0, 1/2) := by
  have h := claim6_normalization.2.2.1 (.js "-5" none) (-5) none (1/2)
    (by decide) rfl
  obtain ⟨h1, h2⟩ := h
  norm_num at h1 h2
  exact ⟨by decide, h1, h2⟩

/-! ## Claim C10 -/

/-- Claim C10: the two clients disagree on a reply whose payload object
lacks the `label` key — the completion-envelope client treats it as
malformed (the attempt fails and is retried to the terminal error), while
the structured-output client silently defaults the missing label to 0 and
returns success. -/
theorem claim10_missing_label :
    (∀ po : List (String × JVal), List.lookup "label" po = none →
      extractOpenai (mkOpenaiEnvP po) = none) ∧
    (∀ (po : List (String × JVal)) (t : String) (K : ℕ), 0 < K →
      List.lookup "label" po = none →
      callOpenai (fun _ => ⟨200, t, some (mkOpenaiEnvP po)⟩) K =
        (.terminal (some 200) (strTake t 300), sleepSeq K)) ∧
    (∀ (po : List (String × JVal)) (t : String) (K : ℕ) (q : ℚ), 0 < K →
      List.lookup "label" po = none →
      pyFloat? ((List.lookup "confidence" po).getD (.jn (1/2))) = some q →
      callResponses (fun _ => ⟨200, t, some (mkRespEnvP po)⟩) K =
        (.ok 0 (max 0 (min 1 q)), [])) := by
  have hnone : ∀ po : List (String × JVal), List.lookup "label" po = none →
      extractOpenai (mkOpenaiEnvP po) = none := by
    intro po h
    simp [mkOpenaiEnvP, extractOpenai, jsonLoads, List.lookup,
      str_beq_decide, h]
  refine ⟨hnone, ?_, ?_⟩
  · intro po t K hK h
    exact callOpenai_allFail _ K hK
      (fun i hi => Or.inr ⟨mkOpenaiEnvP po, rfl, hnone po h⟩)
  · intro po t K q hK h hq
    have hparse : respParse (mkRespEnvP po) = some (0, max 0 (min 1 q)) := by
      simp [respParse, mkRespEnvP, parse_output, strat1, pyTruthy, jsonLoads,
        List.lookup, str_beq_decide, h, hq, pyInt?, ratTrunc, -one_div]
    exact callResponses_okAt _ K 0 hK (fun i hi => absurd hi (Nat.not_lt_zero i))
      _ _ rfl rfl hparse

/-- Witness for claim C10 at a concrete payload lacking `label`. -/
theorem claim10_witness :
    List.lookup "label" [("confidence", JVal.jn (9/10))] = none ∧
      callOpenai
          (fun _ => ⟨200, "nb", some (mkOpenaiEnvP [("confidence", .jn (9/10))])⟩)
          3 =
        (.terminal (some 200) (strTake "nb" 300), sleepSeq 3) ∧
      callResponses
          (fun _ => ⟨200, "rb", some (mkRespEnvP [("confidence", .jn (9/10))])⟩)
          3 =
        (.ok 0 (max 0 (min 1 (9/10))), []) := by
  refine ⟨by simp [List.lookup, str_beq_decide], ?_, ?_⟩
  · exact claim10_missing_label.2.1 _ "nb" 3 (by norm_num)
      (by simp [List.lookup, str_beq_decide])
  · exact claim10_missing_label.2.2 _ "rb" 3 (9/10) (by norm_num)
      (by simp [List.lookup, str_beq_decide])
      (by simp [List.lookup, str_beq_decide, pyFloat?])

/-! ## Claim C7 -/

/-- Claim C7 as stated is false on the code: `to01` does not always land
in `{0, 1}` — the numeric string `"5"` is coerced via float-then-int to 5,
which is neither 0 nor 1 and is returned as-is. -/
theorem claim7_out_of_range_counterexample :
    to01 (.str "5") = some 5 ∧ ¬ ((5 : ℤ) = 0 ∨ (5 : ℤ) = 1) := by
  constructor
  · rw [show to01 (.str "5")
        = some (ratTrunc ((1 : ℚ) * ((5 : ℚ) + (0 : ℚ) / (10 : ℚ) ^ (0 : ℕ))))
      from rfl]
    norm_num [ratTrunc]
  · norm_num

/-- Claim C7 amended: `to01` returns an integer or missing: missing input
stays missing; case-insensitive stripped `"1"/"true"/"yes"` map to 1 and
`"0"/"false"/"no"` to 0; numbers and any other numeric string coerce via
float-then-int truncation (which can land outside `{0, 1}`); anything
unparseable yields missing without raising.  In particular
`to01 "1" = 1`, `to01 "No" = 0`, `to01 "true" = 1`,
`to01 "garbage" = missing`; the coercion truncates toward zero, as
Python's `int()` does: `to01 2.7 = 2` and `to01 (-2.7) = -2`. -/
theorem claim7_to01_amended :
    to01 .na = none ∧
    to01 (.str "1") = some 1 ∧ to01 (.str "No") = some 0 ∧
    to01 (.str "true") = some 1 ∧ to01 (.str "garbage") = none ∧
    to01 (.num (27/10)) = some 2 ∧ to01 (.num (-(27/10))) = some (-2) ∧
    (∀ s : String,
      (pyLower (pyStrip s) = "1" ∨ pyLower (pyStrip s) = "true" ∨
        pyLower (pyStrip s) = "yes") → to01 (.str s) = some 1) ∧
    (∀ s : String,
      (pyLower (pyStrip s) = "0" ∨ pyLower (pyStrip s) = "false" ∨
        pyLower (pyStrip s) = "no") → to01 (.str s) = some 0) ∧
    (∀ q : ℚ, to01 (.num q) = some (ratTrunc q)) ∧
    (∀ s : String,
      ¬ (pyLower (pyStrip s) = "1" ∨ pyLower (pyStrip s) = "true" ∨
          pyLower (pyStrip s) = "yes") →
      ¬ (pyLower (pyStrip s) = "0" ∨ pyLower (pyStrip s) = "false" ∨
          pyLower (pyStrip s) = "no") →
      to01 (.str s) = (strToRat? (pyStrip s)).map ratTrunc) := by
  refine ⟨rfl, by decide, by decide, by decide, by decide,
    by norm_num [to01, ratTrunc], by norm_num [to01, ratTrunc], ?_, ?_,
    fun q => rfl, ?_⟩
  · intro s h
    simp only [to01]
    rw [if_pos h]
  · intro s h
    simp only [to01]
    rw [if_neg ?hne, if_pos h]
    case hne =>
      rcases h with h | h | h <;> simp [h]
  · intro s h1 h2
    simp only [to01]
    rw [if_neg h1, if_neg h2]
    cases hs : strToRat? (pyStrip s) <;> simp [hs]

/-- Witness for the amended claim C7: a padded mixed-case true, positive
and negative non-integral numbers (truncated toward zero), and an
out-of-{0,1} numeric string. -/
theorem claim7_witness :
    to01 (.str " TrUe ") = some 1 ∧ to01 (.num (27/10)) = some 2 ∧
      to01 (.num (-(27/10))) = some (-2) ∧
      to01 (.str "2.5") = (strToRat? (pyStrip "2.5")).map ratTrunc := by
  refine ⟨?_, ?_, ?_, ?_⟩
  · exact claim7_to01_amended.2.2.2.2.2.2.2.1 " TrUe "
      (Or.inr (Or.inl (by decide)))
  · have h := claim7_to01_amended.2.2.2.2.2.2.2.2.2.1 (27/10)
    rw [h]
    norm_num [ratTrunc]
  · have h := claim7_to01_amended.2.2.2.2.2.2.2.2.2.1 (-(27/10))
    rw [h]
    norm_num [ratTrunc]
  · exact claim7_to01_amended.2.2.2.2.2.2.2.2.2.2 "2.5" (by decide) (by decide)

/-! ## Claim C8 -/

/-- Claim C8: `evaluate` joins gold and prediction rows by exact text
equality as an inner join (a row appears in the merge exactly when both
sides hold its text), normalizes both label columns dropping rows where
either normalization is missing, and fails fast with the explicit
no-overlap error exactly when the surviving row set is empty — never
returning metrics for it. -/
theorem claim8_evaluate_join (gold pred : List (String × Raw)) :
    (∀ (t : String) (gr pr : Raw),
      (t, gr, pr) ∈ mergedRaw gold pred ↔ (t, gr) ∈ gold ∧ (t, pr) ∈ pred) ∧
    (∀ (t : String) (a b : ℤ),
      (t, a, b) ∈ keptRows gold pred ↔
        ∃ gr pr, (t, gr) ∈ gold ∧ (t, pr) ∈ pred ∧
          to01 gr = some a ∧ to01 pr = some b) ∧
    ((evaluate gold pred = .error .noOverlap) ↔ keptRows gold pred = []) := by
  have hmerged : ∀ (t : String) (gr pr : Raw),
      (t, gr, pr) ∈ mergedRaw gold pred ↔ (t, gr) ∈ gold ∧ (t, pr) ∈ pred := by
    intro t gr pr
    constructor
    · intro h
      simp only [mergedRaw, List.mem_flatMap, List.mem_map,
        List.mem_filter] at h
      obtain ⟨⟨g1, g2⟩, hg, ⟨p1, p2⟩, ⟨hp, hbeq⟩, heq⟩ := h
      obtain ⟨e1, e2, e3⟩ : g1 = t ∧ g2 = gr ∧ p2 = pr := by
        rw [Prod.ext_iff, Prod.ext_iff] at heq
        exact ⟨heq.1, heq.2.1, heq.2.2⟩
      have e4 : p1 = g1 := by simpa [str_beq_decide] using hbeq
      subst e1; subst e2; subst e3
      rw [e4] at hp
      exact ⟨hg, hp⟩
    · intro ⟨hg, hp⟩
      simp only [mergedRaw, List.mem_flatMap, List.mem_map, List.mem_filter]
      exact ⟨(t, gr), hg, (t, pr), ⟨hp, by simp⟩, rfl⟩
  have hkept : ∀ (t : String) (a b : ℤ),
      (t, a, b) ∈ keptRows gold pred ↔
        ∃ gr pr, (t, gr) ∈ gold ∧ (t, pr) ∈ pred ∧
          to01 gr = some a ∧ to01 pr = some b := by
    intro t a b
    constructor
    · intro h
      simp only [keptRows, List.mem_filterMap] at h
      obtain ⟨⟨t', gr, pr⟩, hx, hfx⟩ := h
      cases hg : to01 gr <;> cases hp : to01 pr <;>
        simp only [hg, hp] at hfx
      · exact Option.noConfusion hfx
      · exact Option.noConfusion hfx
      · exact Option.noConfusion hfx
      injection hfx with hfx'
      obtain ⟨e1, e2, e3⟩ : t' = t ∧ _ = a ∧ _ = b := by
        rw [Prod.ext_iff, Prod.ext_iff] at hfx'
        exact ⟨hfx'.1, hfx'.2.1, hfx'.2.2⟩
      subst e1; subst e2; subst e3
      exact ⟨gr, pr, ((hmerged t' gr pr).mp hx).1, ((hmerged t' gr pr).mp hx).2,
        hg, hp⟩
    · intro ⟨gr, pr, hg, hp, ha, hb⟩
      simp only [keptRows, List.mem_filterMap]
      exact ⟨(t, gr, pr), (hmerged t gr pr).mpr ⟨hg, hp⟩, by simp [ha, hb]⟩
  refine ⟨hmerged, hkept, ?_, ?_⟩
  · intro h
    by_contra hne
    unfold evaluate at h
    rw [if_neg (by simpa [List.isEmpty_iff] using hne)] at h
    cases hs : scoreRows ((keptRows gold pred).map (fun t => (t.2.1, t.2.2))) <;>
      simp only [hs] at h
    · exact ScoreErr.noConfusion (Except.error.inj h)
    · exact Except.noConfusion h
  · intro h
    unfold evaluate
    rw [if_pos (by simp [h])]

/-- Witness for claim C8: a matching pair is in the merge, and disjoint
texts trigger the explicit no-overlap error. -/
theorem claim8_witness :
    (("a", Raw.num 1, Raw.num 0) ∈
        mergedRaw [("a", Raw.num 1)] [("a", Raw.num 0)] ↔
      ("a", Raw.num 1) ∈ [("a", Raw.num 1)] ∧
        ("a", Raw.num 0) ∈ [("a", Raw.num 0)]) ∧
      evaluate [("a", Raw.num 1)] [("b", Raw.num 0)] = .error .noOverlap := by
  constructor
  · exact (claim8_evaluate_join _ _).1 "a" (Raw.num 1) (Raw.num 0)
  · apply (claim8_evaluate_join _ _).2.2.mpr
    rfl

/-! ## Claim C9 -/

/-- Splitting a count over a pointwise-exclusive disjunction of two
predicates. -/
theorem countP_add_of (rows : List (ℤ × ℤ)) (f g h : (ℤ × ℤ) → Bool)
    (hpt : ∀ p ∈ rows, f p = (g p || h p) ∧ ¬(g p = true ∧ h p = true)) :
    rows.countP f = rows.countP g + rows.countP h := by
  induction rows with
  | nil => rfl
  | cons p t ih =>
    simp only [List.countP_cons]
    obtain ⟨h1, h2⟩ := hpt p (List.mem_cons_self p t)
    have ih' := ih (fun q hq => hpt q (List.mem_cons_of_mem p hq))
    rw [ih', h1]
    cases hg : g p <;> cases hh : h p <;> simp [hg, hh] at h2 ⊢ <;> omega

/-- Under the two-class hypotheses the label set sklearn infers for the
confusion matrix is exactly `[0, 1]`. -/
theorem sortedLabels_pair (rows : List (ℤ × ℤ))
    (h01 : ∀ p ∈ rows, (p.1 = 0 ∨ p.1 = 1) ∧ (p.2 = 0 ∨ p.2 = 1))
    (h0 : ∃ p ∈ rows, p.1 = 0 ∨ p.2 = 0)
    (h1 : ∃ p ∈ rows, p.1 = 1 ∨ p.2 = 1) :
    sortedLabels rows = [0, 1] := by
  set base := rows.map Prod.fst ++ rows.map Prod.snd with hbase
  have hmem : ∀ x : ℤ, x ∈ sortedLabels rows ↔ x ∈ base := by
    intro x
    unfold sortedLabels
    rw [List.mem_mergeSort, List.mem_dedup]
  have hnd : (sortedLabels rows).Nodup := by
    unfold sortedLabels
    exact (List.mergeSort_perm _ _).nodup_iff.mpr (List.nodup_dedup _)
  have hsorted : (sortedLabels rows).Pairwise
      (fun a b => decide (a ≤ b) = true) := by
    unfold sortedLabels
    exact List.sorted_mergeSort
      (fun a b c hab hbc => by simp at hab hbc ⊢; omega)
      (fun a b => by simp [Bool.or_eq_true]; omega) _
  have hin0 : (0 : ℤ) ∈ base := by
    obtain ⟨p, hp, hc⟩ := h0
    rcases hc with hc | hc
    · exact List.mem_append_left _ (List.mem_map.mpr ⟨p, hp, hc⟩)
    · exact List.mem_append_right _ (List.mem_map.mpr ⟨p, hp, hc⟩)
  have hin1 : (1 : ℤ) ∈ base := by
    obtain ⟨p, hp, hc⟩ := h1
    rcases hc with hc | hc
    · exact List.mem_append_left _ (List.mem_map.mpr ⟨p, hp, hc⟩)
    · exact List.mem_append_right _ (List.mem_map.mpr ⟨p, hp, hc⟩)
  have hall : ∀ x ∈ base, x = 0 ∨ x = 1 := by
    intro x hx
    rw [hbase, List.mem_append, List.mem_map, List.mem_map] at hx
    rcases hx with ⟨p, hp, hpe⟩ | ⟨p, hp, hpe⟩
    · rw [← hpe]; exact (h01 p hp).1
    · rw [← hpe]; exact (h01 p hp).2
  have h0l : (0 : ℤ) ∈ sortedLabels rows := (hmem 0).mpr hin0
  have h1l : (1 : ℤ) ∈ sortedLabels rows := (hmem 1).mpr hin1
  have halll : ∀ x ∈ sortedLabels rows, x = 0 ∨ x = 1 :=
    fun x hx => hall x ((hmem x).mp hx)
  rcases hl : sortedLabels rows with _ | ⟨a, _ | ⟨b, _ | ⟨c, tl⟩⟩⟩
  · rw [hl] at h0l
    exact absurd h0l (List.not_mem_nil 0)
  · rw [hl] at h0l h1l
    simp at h0l h1l
    omega
  · rw [hl] at h0l h1l hsorted hnd
    have hab : a ≤ b := by
      have := List.rel_of_pairwise_cons hsorted (List.mem_cons_self b [])
      simpa using this
    have hne : a ≠ b := by
      simpa [List.nodup_cons] using hnd
    simp at h0l h1l
    have hfin : a = 0 ∧ b = 1 := by omega
    rw [hfin.1, hfin.2]
  · rw [hl] at halll hnd
    have ha := halll a (by simp)
    have hb := halll b (by simp)
    have hc := halll c (by simp)
    simp [List.nodup_cons] at hnd
    omega

/-- When every row carries the single class `l` on both sides, sklearn
infers a one-element label set. -/
theorem sortedLabels_single (rows : List (ℤ × ℤ)) (l : ℤ)
    (hne : rows ≠ []) (hall : ∀ p ∈ rows, p.1 = l ∧ p.2 = l) :
    sortedLabels rows = [l] := by
  have hmem : ∀ x : ℤ, x ∈ sortedLabels rows ↔
      x ∈ rows.map Prod.fst ++ rows.map Prod.snd := by
    intro x
    unfold sortedLabels
    rw [List.mem_mergeSort, List.mem_dedup]
  have hnd : (sortedLabels rows).Nodup := by
    unfold sortedLabels
    exact (List.mergeSort_perm _ _).nodup_iff.mpr (List.nodup_dedup _)
  obtain ⟨p, hp⟩ : ∃ p, p ∈ rows := by
    cases rows with
    | nil => exact absurd rfl hne
    | cons q t => exact ⟨q, List.mem_cons_self q t⟩
  have hinl : l ∈ sortedLabels rows := by
    rw [hmem]
    exact List.mem_append_left _ (List.mem_map.mpr ⟨p, hp, (hall p hp).1⟩)
  have halll : ∀ x ∈ sortedLabels rows, x = l := by
    intro x hx
    rw [hmem, List.mem_append, List.mem_map, List.mem_map] at hx
    rcases hx with ⟨q, hq, hqe⟩ | ⟨q, hq, hqe⟩
    · rw [← hqe]; exact (hall q hq).1
    · rw [← hqe]; exact (hall q hq).2
  rcases hl : sortedLabels rows with _ | ⟨a, _ | ⟨b, tl⟩⟩
  · rw [hl] at hinl
    exact absurd hinl (List.not_mem_nil l)
  · rw [hl] at halll
    have ha := halll a (by simp)
    rw [ha]
  · rw [hl] at halll hnd
    have ha := halll a (by simp)
    have hb := halll b (by simp)
    simp [List.nodup_cons] at hnd
    exact absurd (ha.trans hb.symm) hnd.1.1

/-- Claim C9 as stated is false on the code: a non-empty merged row set in
which only one class appears makes `confusion_matrix(...).ravel()` yield a
single value, so the unpacking into `tn, fp, fn, tp` raises — modelled as
the `cmUnpack` failure — instead of computing metrics without raising. -/
theorem claim9_single_class_counterexample :
    evaluate [("a", Raw.num 0)] [("a", Raw.num 0)] = .error .cmUnpack ∧
      keptRows [("a", Raw.num 0)] [("a", Raw.num 0)] ≠ [] := by
  constructor
  · have hkept : keptRows [("a", Raw.num 0)] [("a", Raw.num 0)] =
        [("a", 0, 0)] := by
      simp [keptRows, mergedRaw, to01, ratTrunc]
    have hscore : scoreRows [((0 : ℤ), (0 : ℤ))] = none := by
      unfold scoreRows cmRavel
      rw [sortedLabels_single [((0 : ℤ), (0 : ℤ))] 0 (by simp) (by simp)]
    have hmap : [("a", (0 : ℤ), (0 : ℤ))].map
        (fun t : String × ℤ × ℤ => (t.2.1, t.2.2)) = [((0 : ℤ), (0 : ℤ))] := rfl
    simp only [evaluate, hkept]
    rw [hmap, hscore]
    rfl
  · simp [keptRows, mergedRaw, to01, ratTrunc]

/-- Claim C9 amended: on every non-empty merged row set whose labels lie
in `{0, 1}` with both classes present among the true and predicted values,
the metric block computes — without raising — accuracy as the exact-match
rate, precision/recall/F1 for positive class 1 with the convention that
zero predicted or actual positives yield 0, and the confusion counts in
the fixed order TN, FP, FN, TP; when only one class appears, the
confusion-matrix unpacking raises instead of producing four counts. -/
theorem claim9_metrics_amended :
    (∀ rows : List (ℤ × ℤ),
      (∀ p ∈ rows, (p.1 = 0 ∨ p.1 = 1) ∧ (p.2 = 0 ∨ p.2 = 1)) →
      (∃ p ∈ rows, p.1 = 0 ∨ p.2 = 0) →
      (∃ p ∈ rows, p.1 = 1 ∨ p.2 = 1) →
      scoreRows rows =
        some ⟨((rows.countP (fun p => decide (p.1 = 0 ∧ p.2 = 0)) +
                rows.countP (fun p => decide (p.1 = 1 ∧ p.2 = 1)) : ℕ) : ℚ) /
              (rows.length : ℚ),
          (if rows.countP (fun p => decide (p.1 = 0 ∧ p.2 = 1)) +
              rows.countP (fun p => decide (p.1 = 1 ∧ p.2 = 1)) = 0 then 0
           else ((rows.countP (fun p => decide (p.1 = 1 ∧ p.2 = 1)) : ℕ) : ℚ) /
              ((rows.countP (fun p => decide (p.1 = 0 ∧ p.2 = 1)) +
                rows.countP (fun p => decide (p.1 = 1 ∧ p.2 = 1)) : ℕ) : ℚ)),
          (if rows.countP (fun p => decide (p.1 = 1 ∧ p.2 = 0)) +
              rows.countP (fun p => decide (p.1 = 1 ∧ p.2 = 1)) = 0 then 0
           else ((rows.countP (fun p => decide (p.1 = 1 ∧ p.2 = 1)) : ℕ) : ℚ) /
              ((rows.countP (fun p => decide (p.1 = 1 ∧ p.2 = 0)) +
                rows.countP (fun p => decide (p.1 = 1 ∧ p.2 = 1)) : ℕ) : ℚ)),
          f1B rows,
          rows.countP (fun p => decide (p.1 = 0 ∧ p.2 = 0)),
          rows.countP (fun p => decide (p.1 = 0 ∧ p.2 = 1)),
          rows.countP (fun p => decide (p.1 = 1 ∧ p.2 = 0)),
          rows.countP (fun p => decide (p.1 = 1 ∧ p.2 = 1))⟩) ∧
    (∀ (rows : List (ℤ × ℤ)) (l : ℤ), rows ≠ [] →
      (∀ p ∈ rows, p.1 = l ∧ p.2 = l) → scoreRows rows = none) := by
  constructor
  · intro rows h01 h0 h1
    have hsl := sortedLabels_pair rows h01 h0 h1
    have hacc : rows.countP (fun p => decide (p.1 = p.2)) =
        rows.countP (fun p => decide (p.1 = 0 ∧ p.2 = 0)) +
          rows.countP (fun p => decide (p.1 = 1 ∧ p.2 = 1)) := by
      apply countP_add_of
      intro p hp
      obtain ⟨a, b⟩ := p
      rcases h01 _ hp with ⟨ha | ha, hb | hb⟩ <;> subst ha <;> subst hb <;>
        exact ⟨by decide, by decide⟩
    have hpp : rows.countP (fun p => decide (p.2 = 1)) =
        rows.countP (fun p => decide (p.1 = 0 ∧ p.2 = 1)) +
          rows.countP (fun p => decide (p.1 = 1 ∧ p.2 = 1)) := by
      apply countP_add_of
      intro p hp
      obtain ⟨a, b⟩ := p
      rcases h01 _ hp with ⟨ha | ha, hb | hb⟩ <;> subst ha <;> subst hb <;>
        exact ⟨by decide, by decide⟩
    have hap : rows.countP (fun p => decide (p.1 = 1)) =
        rows.countP (fun p => decide (p.1 = 1 ∧ p.2 = 0)) +
          rows.countP (fun p => decide (p.1 = 1 ∧ p.2 = 1)) := by
      apply countP_add_of
      intro p hp
      obtain ⟨a, b⟩ := p
      rcases h01 _ hp with ⟨ha | ha, hb | hb⟩ <;> subst ha <;> subst hb <;>
        exact ⟨by decide, by decide⟩
    unfold scoreRows cmRavel
    rw [hsl]
    unfold accuracyOf precisionB recallB
    rw [hacc, hpp, hap]

  · intro rows l hne hall
    have hsl := sortedLabels_single rows l hne hall
    unfold scoreRows cmRavel
    rw [hsl]

/-- Witness for the amended claim C9: a three-row two-class set yields the
expected metrics and counts, and a one-class set makes the metric block
raise. -/
theorem claim9_witness :
    scoreRows [((0 : ℤ), (0 : ℤ)), (1, 1), (0, 1)] =
        some ⟨2/3, 1/2, 1, 2/3, 1, 1, 0, 1⟩ ∧
      scoreRows [((1 : ℤ), (1 : ℤ))] = none := by
  constructor
  · have h := claim9_metrics_amended.1 [((0 : ℤ), (0 : ℤ)), (1, 1), (0, 1)]
      (by decide) (by decide) (by decide)
    rw [h]
    norm_num [List.countP_cons, List.countP_nil, f1B, precisionB, recallB]
  · exact claim9_metrics_amended.2 [((1 : ℤ), (1 : ℤ))] 1 (by decide) (by decide)

/-! ## Claim C1 -/

/-- The source's `m <= 1: continue` skip changes nothing in the
observed-disagreement denominator: the skipped summands are zero. -/
theorem codeDoDen_eq (X : List (List (Option ℚ))) : codeDoDen X = doDen X := by
  unfold codeDoDen doDen
  congr 1
  apply List.map_congr_left
  intro r _
  by_cases h : (rowVals r).length ≤ 1
  · rw [if_pos h]
    have : (rowVals r).length = 0 ∨ (rowVals r).length = 1 := by omega
    rcases this with h' | h' <;> rw [h']
  · rw [if_neg h]

/-- The `m <= 1: continue` skip changes nothing in the
observed-disagreement numerator either: for a row with at most one
rating every category term `n_ic (m_i − n_ic)` vanishes. -/
theorem codeDoNum_eq (X : List (List (Option ℚ))) : codeDoNum X = doNum X := by
  unfold codeDoNum doNum
  congr 1
  apply List.map_congr_left
  intro r _
  by_cases h : (rowVals r).length ≤ 1
  · rw [if_pos h]
    symm
    apply List.sum_eq_zero
    intro x hx
    rw [List.mem_map] at hx
    obtain ⟨c, _, rfl⟩ := hx
    have hc : (rowVals r).count c ≤ (rowVals r).length := List.count_le_length c (rowVals r)
    apply Nat.mul_eq_zero.mpr
    omega
  · rw [if_neg h]

/-- An all-missing matrix has a zero observed-disagreement denominator. -/
theorem doDen_zero_of_empty (X : List (List (Option ℚ)))
    (h : (matVals X).length = 0) : doDen X = 0 := by
  have hnil : ∀ r ∈ X, rowVals r = [] := by
    have : matVals X = [] := List.length_eq_zero.mp h
    exact List.flatMap_eq_nil_iff.mp this
  unfold doDen
  apply List.sum_eq_zero
  intro x hx
  rw [List.mem_map] at hx
  obtain ⟨r, hr, rfl⟩ := hx
  rw [hnil r hr]
  rfl

/-- Claim C1: `kripp_alpha_nominal` returns `alpha = 1 − Do/De` with the
edge cases in this priority: a zero observed-disagreement denominator
`Σ_i m_i (m_i − 1)` yields the explicit undefined value (propagated, never
raised — the function is total); otherwise `De = 0` yields 1.0 exactly
when `Do = 0` and undefined when `Do ≠ 0`. -/
theorem claim1_alpha_edge_cases (X : List (List (Option ℚ))) :
    (doDen X = 0 → kripp_alpha_nominal X = none) ∧
    (0 < doDen X → deVal X = 0 →
      kripp_alpha_nominal X =
        (if (doNum X : ℚ) / (doDen X : ℚ) = 0 then some 1 else none)) ∧
    (0 < doDen X → deVal X ≠ 0 →
      kripp_alpha_nominal X =
        some (1 - ((doNum X : ℚ) / (doDen X : ℚ)) / deVal X)) := by
  refine ⟨?_, ?_, ?_⟩
  · intro h0
    simp only [kripp_alpha_nominal, codeDoDen_eq, codeDoNum_eq, h0]
    simp only [lt_self_iff_false, if_false]
    by_cases hn : (matVals X).length = 0
    · rw [if_pos hn]
    · rw [if_neg hn]
      by_cases hDe : deVal X = 0
      · rw [if_pos hDe]
        simp
      · rw [if_neg hDe]
  · intro hpos hDe
    simp only [kripp_alpha_nominal, codeDoDen_eq, codeDoNum_eq]
    have hn : ¬ (matVals X).length = 0 := by
      intro h
      rw [doDen_zero_of_empty X h] at hpos
      exact absurd hpos (lt_irrefl 0)
    rw [if_neg hn, if_pos hpos, if_pos hDe]
    by_cases h : (doNum X : ℚ) / (doDen X : ℚ) = 0
    · rw [if_pos (by rw [h]), if_pos h]
    · rw [if_neg (fun hc => h (Option.some_inj.mp hc)), if_neg h]
  · intro hpos hDe
    simp only [kripp_alpha_nominal, codeDoDen_eq, codeDoNum_eq]
    have hn : ¬ (matVals X).length = 0 := by
      intro h
      rw [doDen_zero_of_empty X h] at hpos
      exact absurd hpos (lt_irrefl 0)
    rw [if_neg hn, if_neg hDe, if_pos hpos]

/-- Witness for claim C1: the single-item matrix with one disagreeing pair
has `Do_den = 2 > 0`, `De = 1/2 ≠ 0`, and alpha `1 − (2/2)/(1/2) = −1`. -/
theorem claim1_witness :
    0 < doDen [[some 0, some 1]] ∧ deVal [[some 0, some 1]] ≠ 0 ∧
      kripp_alpha_nominal [[some 0, some 1]] = some (-1) := by
  have hden : doDen [[some 0, some 1]] = 2 := by decide
  have hnum : doNum [[some 0, some 1]] = 2 := by
    norm_num [doNum, catsOf, matVals, rowVals, List.filterMap_cons,
      List.dedup_cons_of_not_mem, List.dedup_cons_of_mem, List.dedup_nil,
      List.count_cons, List.count_nil]
  have hde : deVal [[some 0, some 1]] = 1/2 := by
    norm_num [deVal, catsOf, matVals, rowVals, List.filterMap_cons,
      List.dedup_cons_of_not_mem, List.dedup_cons_of_mem, List.dedup_nil,
      List.count_cons, List.count_nil]
  refine ⟨by rw [hden]; norm_num, by rw [hde]; norm_num, ?_⟩
  have h := (claim1_alpha_edge_cases [[some 0, some 1]]).2.2
    (by rw [hden]; norm_num) (by rw [hde]; norm_num)
  rw [h, hden, hnum, hde]
  norm_num

/-! ## Claim C2 -/

/-- Model of `itertools.combinations` over the rater columns yields exactly the
pairs `a < b < R`. -/
theorem combos_mem (R a b : ℕ) : (a, b) ∈ combos R ↔ a < b ∧ b < R := by
  unfold combos
  simp only [List.mem_flatMap, List.mem_map, List.mem_filter, List.mem_range]
  constructor
  · rintro ⟨a', ha', b', ⟨hb', hab⟩, heq⟩
    obtain ⟨e1, e2⟩ := Prod.mk.inj heq
    subst e1
    subst e2
    exact ⟨by simpa using hab, hb'⟩
  · rintro ⟨hab, hb⟩
    exact ⟨a, by omega, b, ⟨hb, by simpa using hab⟩, rfl⟩

/-- Model of `itertools.combinations` yields each unordered pair at most once. -/
theorem combos_nodup (R : ℕ) : (combos R).Nodup := by
  unfold combos
  rw [List.nodup_flatMap]
  constructor
  · intro a _
    apply List.Nodup.map
    · intro x y hxy
      exact (Prod.mk.inj hxy).2
    · exact (List.nodup_range R).filter _
  · apply List.Pairwise.imp ?_ (List.pairwise_lt_range R)
    intro a a' haa'
    simp only [Function.onFun, List.disjoint_left]
    rintro ⟨x, y⟩ hx hy
    rw [List.mem_map] at hx hy
    obtain ⟨b, _, hb⟩ := hx
    obtain ⟨b', _, hb'⟩ := hy
    have e1 := (Prod.mk.inj hb).1
    have e2 := (Prod.mk.inj hb').1
    omega

/-- Projecting the unsorted pairwise rows onto their rater pair gives the
combinations that survive the `len(sub) >= 2` filter. -/
theorem pairRows_proj (X : List (List (Option ℚ))) (R : ℕ) :
    (pairRowsOf X R).map (fun r => (r.rater_a, r.rater_b)) =
      (combos R).filter (fun p => decide (2 ≤ (pairSub X p.1 p.2).length)) := by
  unfold pairRowsOf
  generalize combos R = l
  induction l with
  | nil => rfl
  | cons p t ih =>
    by_cases h : 2 ≤ (pairSub X p.1 p.2).length
    · simp [List.filterMap_cons, List.filter_cons, h, ih]
    · simp [List.filterMap_cons, List.filter_cons, h, ih]

/-- Membership in the unsorted pairwise rows, with the recorded
`n_items` and alpha. -/
theorem mem_pairRows (X : List (List (Option ℚ))) (R : ℕ) (r : PairRow) :
    r ∈ pairRowsOf X R ↔
      (r.rater_a, r.rater_b) ∈ combos R ∧
        2 ≤ (pairSub X r.rater_a r.rater_b).length ∧
        r.n_items = (pairSub X r.rater_a r.rater_b).length ∧
        r.alpha = kripp_alpha_nominal (pairMat (pairSub X r.rater_a r.rater_b)) := by
  unfold pairRowsOf
  rw [List.mem_filterMap]
  constructor
  · rintro ⟨⟨a, b⟩, hp, hfp⟩
    by_cases h : 2 ≤ (pairSub X a b).length
    · rw [if_pos h] at hfp
      injection hfp with hfp'
      subst hfp'
      exact ⟨hp, h, rfl, rfl⟩
    · rw [if_neg h] at hfp
      exact Option.noConfusion hfp
  · rintro ⟨hp, hlen, hn, ha⟩
    refine ⟨(r.rater_a, r.rater_b), hp, ?_⟩
    rw [if_pos hlen]
    obtain ⟨a, b, n, al⟩ := r
    simp only at hn ha
    rw [hn, ha]

/-- The pandas descending-with-NaN-last comparison is transitive. -/
theorem alphaLe_trans (x y z : Option ℚ) (h1 : alphaLe x y = true)
    (h2 : alphaLe y z = true) : alphaLe x z = true := by
  cases x <;> cases y <;> cases z <;> simp [alphaLe] at h1 h2 ⊢
  exact le_trans h2 h1

/-- The pandas descending-with-NaN-last comparison is total. -/
theorem alphaLe_total (x y : Option ℚ) :
    (alphaLe x y || alphaLe y x) = true := by
  cases x <;> cases y <;> simp [alphaLe]
  exact le_total _ _

/-- Claim C2: the pairwise table visits every unordered rater pair exactly
once (the projection to pairs is duplicate-free, and a pair appears iff
`a < b < R` and at least 2 items survive the both-non-missing
restriction — a pair with fewer such items is absent entirely); each row
records the restricted item count and the alpha of the restricted
two-column submatrix; and the table is sorted by alpha descending with
undefined alphas last. -/
theorem claim2_pairwise_table (X : List (List (Option ℚ))) (R : ℕ) :
    ((computePairwiseTable X R).map (fun r => (r.rater_a, r.rater_b))).Nodup ∧
    (∀ a b : ℕ,
      ((a, b) ∈ (computePairwiseTable X R).map (fun r => (r.rater_a, r.rater_b)))
        ↔ (a < b ∧ b < R ∧ 2 ≤ (pairSub X a b).length)) ∧
    (∀ r ∈ computePairwiseTable X R,
      r.n_items = (pairSub X r.rater_a r.rater_b).length ∧
        r.alpha = kripp_alpha_nominal (pairMat (pairSub X r.rater_a r.rater_b))) ∧
    (computePairwiseTable X R).Pairwise
      (fun r s => alphaLe r.alpha s.alpha = true) := by
  have hperm : List.Perm (computePairwiseTable X R) (pairRowsOf X R) :=
    List.mergeSort_perm _ _
  refine ⟨?_, ?_, ?_, ?_⟩
  · apply (hperm.map (fun r => (r.rater_a, r.rater_b))).nodup_iff.mpr
    rw [pairRows_proj]
    exact (combos_nodup R).filter _
  · intro a b
    rw [(hperm.map (fun r => (r.rater_a, r.rater_b))).mem_iff, pairRows_proj,
      List.mem_filter, combos_mem]
    constructor
    · rintro ⟨⟨h1, h2⟩, h3⟩
      exact ⟨h1, h2, by simpa using h3⟩
    · rintro ⟨h1, h2, h3⟩
      exact ⟨⟨h1, h2⟩, by simpa using h3⟩
  · intro r hr
    have := (mem_pairRows X R r).mp (hperm.mem_iff.mp hr)
    exact ⟨this.2.2.1, this.2.2.2⟩
  · exact List.sorted_mergeSort
      (fun a b c => alphaLe_trans a.alpha b.alpha c.alpha)
      (fun a b => alphaLe_total a.alpha b.alpha) _

/-- Witness for claim C2 on a concrete 2-rater, 2-item matrix: the single
eligible pair (0, 1) appears in the table and the impossible pair (2, 3)
does not. -/
theorem claim2_witness :
    ((0, 1) ∈ (computePairwiseTable [[some 1, some 1], [some 0, some 0]] 2).map
        (fun r => (r.rater_a, r.rater_b))) ∧
      ¬ ((2, 3) ∈
        (computePairwiseTable [[some 1, some 1], [some 0, some 0]] 2).map
          (fun r => (r.rater_a, r.rater_b))) := by
  constructor
  · exact ((claim2_pairwise_table [[some 1, some 1], [some 0, some 0]] 2).2.1
      0 1).mpr ⟨by norm_num, by norm_num, by decide⟩
  · intro h
    have := ((claim2_pairwise_table [[some 1, some 1], [some 0, some 0]] 2).2.1
      2 3).mp h
    omega

end Cira
